import Mathlib

/-!
A shallow embedding of the batched register-access engine of
`src/huawei_solar/huawei_solar.py`: request validation and range planning
(`get_multiple`), the wire-read retry loop (`_do_read` under the `backoff`
decorator), response decoding (`_decode_response` and the skip/decode walk),
and the lock-plus-cooldown discipline of `_read_registers`.

Machine integers are modelled as `Nat`/`Int` (Python integers do not
overflow); fallible code returns `Except`; the transport collaborator is a
function from attempt index to outcome; wire traffic is made observable as a
list of issued `WireRequest`s.
-/

namespace HuaweiSolar

instance {ε α : Type} [DecidableEq ε] [DecidableEq α] : DecidableEq (Except ε α)
  | .error e, .error f =>
    if h : e = f then isTrue (h ▸ rfl) else isFalse (fun hc => h (Except.error.inj hc))
  | .error _, .ok _ => isFalse (fun hc => Except.noConfusion hc)
  | .ok _, .error _ => isFalse (fun hc => Except.noConfusion hc)
  | .ok x, .ok y =>
    if h : x = y then isTrue (h ▸ rfl) else isFalse (fun hc => h (Except.ok.inj hc))

/-- Modelled from the spec: the `unit` attribute of a register definition
(the repository module `registers` is not under `src/`) is either absent, a
callable, a mapping, or a plain static unit string (spec section 3:
`unit: Unit | callable | mapping | absent`). -/
inductive UnitAttr where
  | absent
  | callableUnit
  | mappingUnit
  | staticUnit (u : String)
deriving DecidableEq, Inhabited

/-- Modelled from the spec: a register definition `{offset, length, decode,
unit}` with `offset`/`length` in 16-bit-word units (spec section 3).  The
field names `register`, `length`, `unit` follow their use in
`huawei_solar.py` (`registers[idx].register`, `.length`, `.unit`). -/
structure RegisterDefinition where
  register : Nat
  length : Nat
  unit : UnitAttr
deriving DecidableEq, Inhabited

/-- `Result = namedtuple("Result", "value unit")`.  The decoded value is
modelled as the byte slice consumed by the decode function (see
`decodeRegister`). -/
structure Result where
  value : List Nat
  unit : Option String
deriving DecidableEq, Inhabited

/-- The three error kinds raised by the module: `ValueError` for invalid
requests, `ConnectionException`, and `ReadException`. -/
inductive SolarError where
  | invalidRequest (msg : String)
  | connectionError (msg : String)
  | readError (msg : String)
deriving DecidableEq

/-- A modbus reply: register words, or a pymodbus `ExceptionResponse`
carrying a protocol-level exception code. -/
inductive WireResponse where
  | registersResp (registers : List Nat)
  | exceptionResponse (code : Nat)
deriving DecidableEq

/-- Modelled from the spec: the outcome the transport collaborator produces
for the k-th `read_holding_registers` attempt — a reply (possibly a
protocol-level exception response), an `asyncio.TimeoutError`, or a pymodbus
`ConnectionException` (spec section 6, transport collaborator). -/
inductive TransportOutcome where
  | reply (r : WireResponse)
  | timeoutErr
  | connectionLost
deriving DecidableEq

/-- The transport collaborator: its `connected` flag at call time plus the
outcome of each successive wire attempt. -/
structure Transport where
  connected : Bool
  outcome : Nat → TransportOutcome

/-- One issued `read_holding_registers(register, length, unit=...)` call. -/
structure WireRequest where
  address : Nat
  count : Int
  unitId : Int
deriving DecidableEq

def DEFAULT_SLAVE : Int := 0

def DEFAULT_TIMEOUT : Nat := 5

/-- `DEFAULT_WAIT = 2`: the constant backoff interval, in seconds. -/
def DEFAULT_WAIT : Nat := 2

/-- `max_tries=5` of the `backoff.on_exception` decorator on `_do_read`. -/
def MAX_TRIES : Nat := 5

/-- `DEFAULT_COOLDOWN_TIME = 0.01` seconds. -/
def DEFAULT_COOLDOWN_TIME : ℚ := 1 / 100

/-- Python truthiness of `slave or self.slave` in the
`read_holding_registers` call of `_do_read`: both `None` and `0` are falsy,
so either selects the session default. -/
def effectiveSlave (slave : Option Int) (sessionSlave : Int) : Int :=
  match slave with
  | none => sessionSlave
  | some s => if s = 0 then sessionSlave else s

/-- The message raised by `backoff_giveup` in `_read_registers`. -/
def giveupMessage (register : Nat) (tries : Nat) : String :=
  "Failed to read register " ++ toString register ++ " after " ++
    toString tries ++ " tries"

/-- Result of one attempt of the `_do_read` body: either terminal (a reply
returned, or a `ConnectionException`/`ReadException` raised) or an
`asyncio.TimeoutError`, which alone is retried by the backoff decorator. -/
inductive AttemptStep where
  | finished (r : Except SolarError WireResponse)
  | timedOut

/-- One run of the `_do_read` body, attempt number `k`: check
`self._client.connected`, then issue the wire call; a pymodbus
`ConnectionException` is translated to a `ReadException` on the spot.  Also
returns the wire requests issued by this attempt (none when the connected
check fails). -/
def doReadAttempt (tr : Transport) (register : Nat) (count : Int)
    (unitId : Int) (k : Nat) : AttemptStep × List WireRequest :=
  if tr.connected = false then
    (.finished (.error (.connectionError
      "Modbus client is not connected to the inverter.")), [])
  else
    match tr.outcome k with
    | .reply r => (.finished (.ok r), [⟨register, count, unitId⟩])
    | .timeoutErr => (.timedOut, [⟨register, count, unitId⟩])
    | .connectionLost =>
      (.finished (.error (.readError
        "could not read register value, is an other device already connected?")),
        [⟨register, count, unitId⟩])

/-- Outcome of the whole retry loop around `_do_read`: the final result, the
number of attempts made (`tries` of the backoff details), the number of
constant-interval backoff waits taken, and all wire requests issued. -/
structure ReadOutcome where
  result : Except SolarError WireResponse
  tries : Nat
  waits : Nat
  requests : List WireRequest
deriving DecidableEq

/-- The `backoff.on_exception(backoff.constant, asyncio.TimeoutError,
interval=DEFAULT_WAIT, max_tries=5, jitter=None)` loop: only
`asyncio.TimeoutError` is retried, after a constant `DEFAULT_WAIT` wait; when
the allowed attempts are exhausted, `backoff_giveup` raises a `ReadException`
reporting the number of tries.  `remaining` counts the attempts still
allowed, `tries`/`waits`/`reqs` accumulate. -/
def backoffRun (tr : Transport) (register : Nat) (count : Int) (unitId : Int) :
    Nat → Nat → Nat → List WireRequest → ReadOutcome
  | 0, tries, waits, reqs =>
    ⟨.error (.readError (giveupMessage register tries)), tries, waits, reqs⟩
  | remaining + 1, tries, waits, reqs =>
    match doReadAttempt tr register count unitId tries with
    | (.finished r, rq) => ⟨r, tries + 1, waits, reqs ++ rq⟩
    | (.timedOut, rq) =>
      if remaining = 0 then
        ⟨.error (.readError (giveupMessage register (tries + 1))), tries + 1,
          waits, reqs ++ rq⟩
      else
        backoffRun tr register count unitId remaining (tries + 1) (waits + 1)
          (reqs ++ rq)

/-- `_do_read` as decorated: up to `MAX_TRIES` attempts starting from attempt
index 0. -/
def doRead (tr : Transport) (register : Nat) (count : Int) (unitId : Int) :
    ReadOutcome :=
  backoffRun tr register count unitId MAX_TRIES 0 0 []

/-- The validation loop of `get_multiple` (`for idx in range(1, len(names))`):
for each adjacent pair, first the monotonicity check
`registers[idx-1].register + registers[idx-1].length > registers[idx].register`,
then the gap check on
`register_distance = registers[idx-1].register + registers[idx-1].length -
registers[idx].register` (computed over Python ints, hence `Int` here). -/
def validatePairs : List RegisterDefinition → Except SolarError Unit
  | a :: b :: rest =>
    if a.register + a.length > b.register then
      .error (.invalidRequest
        ("Requested registers must be in monotonically increasing order, but " ++
          toString a.register ++ " + " ++ toString a.length ++ " > " ++
          toString b.register ++ "!"))
    else
      let register_distance : Int :=
        (a.register : Int) + (a.length : Int) - (b.register : Int)
      if register_distance > 64 then
        .error (.invalidRequest
          "Gap between requested registers is too large. Split it in two requests")
      else
        validatePairs (b :: rest)
  | _ => .ok ()

/-- The read plan derived by `get_multiple` before the wire call:
`registers[0].register`, `total_length`, and the resolved definitions in
request order. -/
structure ReadPlan where
  startOffset : Nat
  totalLength : Int
  orderedDefinitions : List RegisterDefinition
deriving DecidableEq

/-- The validation-and-planning prefix of `get_multiple`: reject an empty
name list, resolve every name against `REGISTERS` rejecting unknown ones, run
the pairwise checks, then compute
`total_length = registers[-1].register + registers[-1].length -
registers[0].register`. -/
def planRequest (schema : String → Option RegisterDefinition)
    (names : List String) : Except SolarError ReadPlan :=
  if names.length = 0 then
    .error (.invalidRequest "Expected at least one register name")
  else
    let registers := names.map schema
    if none ∈ registers then
      .error (.invalidRequest "Did not recognize all register names")
    else
      let regs := registers.reduceOption
      match validatePairs regs with
      | .error e => .error e
      | .ok _ =>
        match regs with
        | [] =>
          -- unreachable: `names` is non-empty and fully resolved
          .error (.invalidRequest "Expected at least one register name")
        | r0 :: rest =>
          let last := (r0 :: rest).getLast (List.cons_ne_nil r0 rest)
          .ok ⟨r0.register,
            (last.register : Int) + (last.length : Int) - (r0.register : Int),
            r0 :: rest⟩

/-- pymodbus `BinaryPayloadDecoder`: a byte buffer plus a read pointer. -/
structure BinaryPayloadDecoder where
  bytes : List Nat
  pointer : Nat
deriving DecidableEq

/-- Modelled from the spec: `BinaryPayloadDecoder.fromRegisters` with
`byteorder=Endian.Big, wordorder=Endian.Big` lays out each 16-bit word
most-significant byte first, words in order (spec section 4.4). -/
def fromRegisters (words : List Nat) : BinaryPayloadDecoder :=
  ⟨words.flatMap (fun w => [w / 256 % 256, w % 256]), 0⟩

/-- `decoder.skip_bytes(n)`: advance the pointer.  `get_multiple` only calls
this with a non-negative count (the monotonicity check has passed). -/
def skipBytes (d : BinaryPayloadDecoder) (n : Nat) : BinaryPayloadDecoder :=
  ⟨d.bytes, d.pointer + n⟩

/-- Modelled from the spec: `reg.decode(decoder, self)` — defined in the
repository module `registers`, not under `src/` — consumes exactly
`reg.length * 2` bytes at the cursor and advances it (spec section 4.4); the
decoded value is modelled as the consumed byte slice. -/
def decodeRegister (reg : RegisterDefinition) (d : BinaryPayloadDecoder) :
    List Nat × BinaryPayloadDecoder :=
  ((d.bytes.drop d.pointer).take (2 * reg.length),
    ⟨d.bytes, d.pointer + 2 * reg.length⟩)

/-- `_decode_response`: decode the register, attaching `reg.unit` unless the
attribute is absent, callable, or a mapping (`not hasattr(reg, "unit") or
callable(reg.unit) or isinstance(reg.unit, dict)`). -/
def decodeResponseStep (reg : RegisterDefinition) (d : BinaryPayloadDecoder) :
    Result × BinaryPayloadDecoder :=
  let vd := decodeRegister reg d
  match reg.unit with
  | .absent => (⟨vd.1, none⟩, vd.2)
  | .callableUnit => (⟨vd.1, none⟩, vd.2)
  | .mappingUnit => (⟨vd.1, none⟩, vd.2)
  | .staticUnit u => (⟨vd.1, some u⟩, vd.2)

/-- The decode loop of `get_multiple` after the first field: for each later
register, `skip_registers = registers[idx].register - (registers[idx-1].register
+ registers[idx-1].length)`, skip `skip_registers * 2` bytes, then decode. -/
def decodeRest (prev : RegisterDefinition) :
    List RegisterDefinition → BinaryPayloadDecoder → List Result → List Result
  | [], _, acc => acc.reverse
  | r :: rs, d, acc =>
    let skip_registers := r.register - (prev.register + prev.length)
    let d2 := skipBytes d (skip_registers * 2)
    let rd := decodeResponseStep r d2
    decodeRest r rs rd.2 (rd.1 :: acc)

/-- The whole decode pass of `get_multiple`: decode the first register, then
run the skip/decode loop over the rest. -/
def decodeAll (regs : List RegisterDefinition) (d : BinaryPayloadDecoder) :
    List Result :=
  match regs with
  | [] => []
  | r0 :: rest =>
    let rd := decodeResponseStep r0 d
    decodeRest r0 rest rd.2 [rd.1]

/-- The `ReadException` message raised by `get_multiple` on an
`ExceptionResponse`. -/
def exceptionMessage (register : Nat) (totalLength : Int) (code : Nat) :
    String :=
  "Got error while reading from register " ++ toString register ++
    " with length " ++ toString totalLength ++ ": " ++ toString code

/-- `get_multiple(names, slave)` end to end: validate and plan, issue the
read through the retry loop, translate an `ExceptionResponse` to a
`ReadException`, then decode.  Returns the call result paired with the list
of wire requests issued. -/
def getMultiple (schema : String → Option RegisterDefinition) (tr : Transport)
    (sessionSlave : Int) (slave : Option Int) (names : List String) :
    Except SolarError (List Result) × List WireRequest :=
  match planRequest schema names with
  | .error e => (.error e, [])
  | .ok plan =>
    let o := doRead tr plan.startOffset plan.totalLength
      (effectiveSlave slave sessionSlave)
    match o.result with
    | .error e => (.error e, o.requests)
    | .ok (.exceptionResponse code) =>
      (.error (.readError
        (exceptionMessage plan.startOffset plan.totalLength code)), o.requests)
    | .ok (.registersResp words) =>
      (.ok (decodeAll plan.orderedDefinitions (fromRegisters words)),
        o.requests)

/-- `get(name, slave)`: `(await self.get_multiple([name], slave))[0]`. -/
def get (schema : String → Option RegisterDefinition) (tr : Transport)
    (sessionSlave : Int) (name : String) (slave : Option Int) :
    Except SolarError Result × List WireRequest :=
  let o := getMultiple schema tr sessionSlave slave [name]
  (o.1.map (fun l => l.headI), o.2)

/-- Events on the per-session `_communication_lock` during one
`_read_registers` call. -/
inductive LockEvent where
  | acquire
  | exchange (success : Bool)
  | cooldownSleep
  | release
deriving DecidableEq

/-- `async with self._communication_lock`: the lock is acquired before the
body and released when the body exits, normally or with an exception. -/
def asyncWithLock (body : List LockEvent) : List LockEvent :=
  [.acquire] ++ body ++ [.release]

/-- The body of the `async with` block in `_read_registers`: `_do_read`,
then `asyncio.sleep(self._cooldown_time)` — but the sleep only runs when
`_do_read` returns normally; when it raises, the exception propagates out of
the block at once. -/
def readRegistersBody (success : Bool) : List LockEvent :=
  if success then [.exchange true, .cooldownSleep] else [.exchange false]

/-- The lock-event trace of one `_read_registers` call whose `_do_read`
succeeded (`success = true`) or raised (`success = false`). -/
def readRegistersTrace (success : Bool) : List LockEvent :=
  asyncWithLock (readRegistersBody success)

/-- Timed model of `N` callers serialized by the session
`_communication_lock`: caller `i` acquires at time `a i`, its `_do_read`
exchange occupies `[a i, a i + d i]`, and — per `_read_registers` — the lock
is released at `a i + d i + c` when the exchange succeeded (`ok i = true`,
the cooldown sleep runs under the lock) but already at `a i + d i` when it
raised.  Mutual exclusion means the next caller acquires no earlier than
that release. -/
def admissibleSchedule (c : ℚ) (N : Nat) (a d : Nat → ℚ) (ok : Nat → Bool) :
    Prop :=
  (∀ i, i < N → 0 ≤ d i) ∧
  (∀ i, i + 1 < N → a i + d i + (if ok i then c else 0) ≤ a (i + 1))

/-- Consecutive exchanges are separated by at least the cooldown `c`. -/
def cooldownSeparated (c : ℚ) (N : Nat) (a d : Nat → ℚ) : Prop :=
  ∀ i, i + 1 < N → a i + d i + c ≤ a (i + 1)

/-- Exchanges never overlap: each one ends before any later one starts. -/
def exchangesSequential (N : Nat) (a d : Nat → ℚ) : Prop :=
  ∀ i j, i < j → j < N → a i + d i ≤ a j

/-- The byte slice the specification assigns to a field inside the fetched
buffer: the decode cursor for `reg` sits at byte
`2 * (reg.register - startOffset)` and consumes `2 * reg.length` bytes. -/
def specFieldValue (startOffset : Nat) (bytes : List Nat)
    (reg : RegisterDefinition) : List Nat :=
  (bytes.drop (2 * (reg.register - startOffset))).take (2 * reg.length)

/-- The unit `_decode_response` attaches to a decoded field. -/
def staticUnitOf (reg : RegisterDefinition) : Option String :=
  match reg.unit with
  | .staticUnit u => some u
  | _ => none

/-- A resolved definition list violating strictly-increasing,
non-overlapping offset order at some adjacent pair. -/
def HasOrderViolation (regs : List RegisterDefinition) : Prop :=
  ∃ i, i + 1 < regs.length ∧
    (regs.getD (i + 1) default).register <
      (regs.getD i default).register + (regs.getD i default).length

/-- Concrete two-register schema with a one-word gap, for witnesses. -/
def schemaTwo : String → Option RegisterDefinition := fun n =>
  if n = "A" then some ⟨0, 1, .staticUnit "V"⟩
  else if n = "B" then some ⟨2, 1, .absent⟩
  else none

/-- Concrete schema whose two registers are 99 words apart. -/
def schemaGap : String → Option RegisterDefinition := fun n =>
  if n = "A" then some ⟨0, 1, .absent⟩
  else if n = "B" then some ⟨100, 1, .absent⟩
  else none

/-- A connected transport that replies identically to every attempt. -/
def replyTransport (r : WireResponse) : Transport :=
  ⟨true, fun _ => .reply r⟩

/-- A connected transport whose every attempt times out. -/
def timeoutTransport : Transport :=
  ⟨true, fun _ => .timeoutErr⟩

/-- A transport that is not connected at call time. -/
def downTransport : Transport :=
  ⟨false, fun _ => .timeoutErr⟩

/-- A connected transport whose every attempt raises a pymodbus
`ConnectionException`. -/
def connLostTransport : Transport :=
  ⟨true, fun _ => .connectionLost⟩

/-! ## Lemmas about the `_do_read` retry loop -/

theorem doReadAttempt_disconnected {tr : Transport} (reg : Nat) (c u : Int)
    (k : Nat) (h : tr.connected = false) :
    doReadAttempt tr reg c u k =
      (.finished (.error (.connectionError
        "Modbus client is not connected to the inverter.")), []) := by
  simp [doReadAttempt, h]

theorem doReadAttempt_reply {tr : Transport} {k : Nat} {r : WireResponse}
    (reg : Nat) (c u : Int) (hc : tr.connected = true)
    (h : tr.outcome k = .reply r) :
    doReadAttempt tr reg c u k = (.finished (.ok r), [⟨reg, c, u⟩]) := by
  simp [doReadAttempt, hc, h]

theorem doReadAttempt_connLost {tr : Transport} {k : Nat}
    (reg : Nat) (c u : Int) (hc : tr.connected = true)
    (h : tr.outcome k = .connectionLost) :
    doReadAttempt tr reg c u k =
      (.finished (.error (.readError
        "could not read register value, is an other device already connected?")),
        [⟨reg, c, u⟩]) := by
  simp [doReadAttempt, hc, h]

theorem backoffRun_finished {tr : Transport} {reg : Nat} {c u : Int}
    {remaining tries waits : Nat} {reqs rq : List WireRequest}
    {r : Except SolarError WireResponse}
    (h : doReadAttempt tr reg c u tries = (.finished r, rq)) :
    backoffRun tr reg c u (remaining + 1) tries waits reqs =
      ⟨r, tries + 1, waits, reqs ++ rq⟩ := by
  simp [backoffRun, h]

theorem doRead_attempt0 {tr : Transport} {reg : Nat} {c u : Int}
    {r : Except SolarError WireResponse} {rq : List WireRequest}
    (h : doReadAttempt tr reg c u 0 = (.finished r, rq)) :
    doRead tr reg c u = ⟨r, 1, 0, rq⟩ := by
  have h5 := @backoffRun_finished tr reg c u 4 0 0 [] rq r h
  simpa [doRead, MAX_TRIES] using h5

theorem backoffRun_all_timeouts {tr : Transport} (reg : Nat) (c u : Int)
    (hc : tr.connected = true) (ht : ∀ k, tr.outcome k = .timeoutErr) :
    ∀ remaining, remaining ≠ 0 → ∀ tries waits reqs,
      backoffRun tr reg c u remaining tries waits reqs =
        ⟨.error (.readError (giveupMessage reg (tries + remaining))),
          tries + remaining, waits + (remaining - 1),
          reqs ++ List.replicate remaining ⟨reg, c, u⟩⟩ := by
  intro remaining
  induction remaining with
  | zero => intro h; exact absurd rfl h
  | succ n ih =>
    intro _ tries waits reqs
    have hat : doReadAttempt tr reg c u tries = (.timedOut, [⟨reg, c, u⟩]) := by
      simp [doReadAttempt, hc, ht]
    by_cases h0 : n = 0
    · subst h0
      simp [backoffRun, hat]
    · have step : backoffRun tr reg c u (n + 1) tries waits reqs =
          backoffRun tr reg c u n (tries + 1) (waits + 1)
            (reqs ++ [⟨reg, c, u⟩]) := by
        simp [backoffRun, hat, h0]
      rw [step, ih h0 (tries + 1) (waits + 1) (reqs ++ [(⟨reg, c, u⟩ : WireRequest)])]
      have e1 : tries + 1 + n = tries + (n + 1) := by omega
      have e2 : waits + 1 + (n - 1) = waits + (n + 1 - 1) := by omega
      rw [e1, e2]
      simp [List.replicate_succ]

theorem doRead_all_timeouts {tr : Transport} {reg : Nat} {c u : Int}
    (hc : tr.connected = true) (ht : ∀ k, tr.outcome k = .timeoutErr) :
    doRead tr reg c u =
      ⟨.error (.readError (giveupMessage reg 5)), 5, 4,
        List.replicate 5 ⟨reg, c, u⟩⟩ := by
  have h5 := backoffRun_all_timeouts reg c u hc ht 5 (by norm_num) 0 0 []
  simpa [doRead, MAX_TRIES] using h5

theorem backoffRun_tries_le (tr : Transport) (reg : Nat) (c u : Int) :
    ∀ remaining tries waits reqs,
      (backoffRun tr reg c u remaining tries waits reqs).tries ≤
        tries + remaining := by
  intro remaining
  induction remaining with
  | zero => intro tries waits reqs; simp [backoffRun]
  | succ n ih =>
    intro tries waits reqs
    rcases hat : doReadAttempt tr reg c u tries with ⟨step, rq⟩
    cases step with
    | finished r =>
      simp [backoffRun, hat]
    | timedOut =>
      by_cases h0 : n = 0
      · subst h0
        simp [backoffRun, hat]
      · have hn := ih (tries + 1) (waits + 1) (reqs ++ rq)
        have step : backoffRun tr reg c u (n + 1) tries waits reqs =
            backoffRun tr reg c u n (tries + 1) (waits + 1) (reqs ++ rq) := by
          simp [backoffRun, hat, h0]
        rw [step]
        omega

theorem doRead_reply {tr : Transport} {r : WireResponse} (reg : Nat) (c u : Int)
    (hc : tr.connected = true) (h0 : tr.outcome 0 = .reply r) :
    doRead tr reg c u = ⟨.ok r, 1, 0, [⟨reg, c, u⟩]⟩ :=
  doRead_attempt0 (doReadAttempt_reply reg c u hc h0)

/-! ## Lemmas about validation and planning -/

theorem reduceOption_map_eq_filterMap {α β : Type} (f : α → Option β)
    (l : List α) : (l.map f).reduceOption = l.filterMap f := by
  simp [List.reduceOption, List.filterMap_map]

theorem length_filterMap_of_none_not_mem {α β : Type} {f : α → Option β}
    {l : List α} (h : none ∉ l.map f) : (l.filterMap f).length = l.length := by
  induction l with
  | nil => simp
  | cons a t ih =>
    simp only [List.map_cons, List.mem_cons] at h
    push_neg at h
    obtain ⟨h1, h2⟩ := h
    rcases ha : f a with _ | b
    · exact absurd ha.symm h1
    · simp [List.filterMap_cons, ha, ih h2]

theorem validatePairs_ok_chain :
    ∀ regs : List RegisterDefinition, validatePairs regs = .ok () →
      List.Chain' (fun x y => x.register + x.length ≤ y.register) regs := by
  intro regs
  induction regs with
  | nil => intro _; simp
  | cons a rest ih =>
    cases rest with
    | nil => intro _; simp
    | cons b rest2 =>
      intro h
      by_cases h1 : a.register + a.length > b.register
      · simp [validatePairs, h1] at h
      · by_cases h2 : ((a.register : Int) + (a.length : Int) - (b.register : Int)) > 64
        · simp [validatePairs, h1, h2] at h
        · have h3 : validatePairs (b :: rest2) = .ok () := by
            simpa [validatePairs, h1, h2] using h
          exact List.chain'_cons.mpr ⟨by omega, ih h3⟩

theorem validatePairs_error_shape :
    ∀ (regs : List RegisterDefinition) (e : SolarError),
      validatePairs regs = .error e → ∃ m, e = .invalidRequest m := by
  intro regs
  induction regs with
  | nil => intro e h; simp [validatePairs] at h
  | cons a rest ih =>
    cases rest with
    | nil => intro e h; simp [validatePairs] at h
    | cons b rest2 =>
      intro e h
      by_cases h1 : a.register + a.length > b.register
      · simp [validatePairs, h1] at h
        exact ⟨_, h.symm⟩
      · by_cases h2 : ((a.register : Int) + (a.length : Int) - (b.register : Int)) > 64
        · simp [validatePairs, h1, h2] at h
          exact ⟨_, h.symm⟩
        · exact ih e (by simpa [validatePairs, h1, h2] using h)

theorem validatePairs_violation :
    ∀ regs : List RegisterDefinition, HasOrderViolation regs →
      ∃ m, validatePairs regs = .error (.invalidRequest m) := by
  intro regs
  induction regs with
  | nil =>
    rintro ⟨i, hi, -⟩
    simp at hi
  | cons a rest ih =>
    cases rest with
    | nil =>
      rintro ⟨i, hi, -⟩
      simp at hi
    | cons b rest2 =>
      rintro ⟨i, hi, hv⟩
      cases i with
      | zero =>
        have h1 : a.register + a.length > b.register := by simpa using hv
        have herr : validatePairs (a :: b :: rest2) =
            .error (.invalidRequest
              ("Requested registers must be in monotonically increasing order, but " ++
                toString a.register ++ " + " ++ toString a.length ++ " > " ++
                toString b.register ++ "!")) := by
          simp [validatePairs, h1]
        exact ⟨_, herr⟩
      | succ j =>
        have hvb : HasOrderViolation (b :: rest2) :=
          ⟨j, by simpa using hi, by simpa using hv⟩
        by_cases h1 : a.register + a.length > b.register
        · have herr : validatePairs (a :: b :: rest2) =
              .error (.invalidRequest
                ("Requested registers must be in monotonically increasing order, but " ++
                  toString a.register ++ " + " ++ toString a.length ++ " > " ++
                  toString b.register ++ "!")) := by
            simp [validatePairs, h1]
          exact ⟨_, herr⟩
        · have h2 : ¬ ((a.register : Int) + (a.length : Int) - (b.register : Int) > 64) := by
            push_neg
            omega
          obtain ⟨m, hm⟩ := ih hvb
          exact ⟨m, by simp [validatePairs, h1, h2, hm]⟩

theorem getMultiple_planError {schema : String → Option RegisterDefinition}
    {tr : Transport} {ss : Int} {sl : Option Int} {names : List String}
    {e : SolarError} (h : planRequest schema names = .error e) :
    getMultiple schema tr ss sl names = (.error e, []) := by
  simp [getMultiple, h]

theorem planRequest_error_shape {schema : String → Option RegisterDefinition}
    {names : List String} {e : SolarError}
    (h : planRequest schema names = .error e) : ∃ m, e = .invalidRequest m := by
  by_cases h0 : names.length = 0
  · simp [planRequest, h0] at h
    exact ⟨_, h.symm⟩
  · by_cases h1 : none ∈ names.map schema
    · simp [planRequest, h0, h1] at h
      exact ⟨_, h.symm⟩
    · cases hv : validatePairs ((names.map schema).reduceOption) with
      | error ev =>
        have he : ev = e := by simpa [planRequest, h0, h1, hv] using h
        obtain ⟨m, hm⟩ := validatePairs_error_shape _ _ hv
        exact ⟨m, he ▸ hm⟩
      | ok u =>
        cases hr : (names.map schema).reduceOption with
        | nil =>
          rw [hr] at hv
          simp [planRequest, h0, h1, hv, hr] at h
          exact ⟨_, h.symm⟩
        | cons r0 rest =>
          rw [hr] at hv
          simp [planRequest, h0, h1, hv, hr] at h

theorem planRequest_ok_spec {schema : String → Option RegisterDefinition}
    {names : List String} {plan : ReadPlan}
    (h : planRequest schema names = .ok plan) :
    plan.orderedDefinitions = names.filterMap schema ∧
    plan.startOffset = (names.filterMap schema).headI.register ∧
    plan.totalLength =
      ((((names.filterMap schema).getLastD default).register : Int) +
        (((names.filterMap schema).getLastD default).length : Int) -
        ((names.filterMap schema).headI.register : Int)) ∧
    validatePairs (names.filterMap schema) = .ok () ∧
    (names.filterMap schema).length = names.length := by
  have hrm : (names.map schema).reduceOption = names.filterMap schema :=
    reduceOption_map_eq_filterMap schema names
  by_cases h0 : names.length = 0
  · simp [planRequest, h0] at h
  by_cases h1 : none ∈ names.map schema
  · simp [planRequest, h0, h1] at h
  cases hv : validatePairs ((names.map schema).reduceOption) with
  | error ev => simp [planRequest, h0, h1, hv] at h
  | ok u =>
    cases hr : (names.map schema).reduceOption with
    | nil =>
      rw [hr] at hv
      simp [planRequest, h0, h1, hv, hr] at h
    | cons r0 rest =>
      rw [hr] at hv
      have hplan := h
      simp [planRequest, h0, h1, hv, hr] at hplan
      have hfm : names.filterMap schema = r0 :: rest := by rw [← hrm, hr]
      have hlen : (names.filterMap schema).length = names.length := by
        rw [hfm, ← hr, hrm]
        exact length_filterMap_of_none_not_mem h1
      refine ⟨?_, ?_, ?_, ?_, hlen⟩
      · rw [hfm, ← hplan]
      · rw [hfm, ← hplan]
        simp
      · rw [hfm, ← hplan]
        simp [List.getLastD_eq_getLast?, List.getLast?_eq_getLast]
      · rw [hfm]
        cases u
        exact hv

/-! ## Lemmas about the decode walk -/

theorem decodeResponseStep_eval (reg : RegisterDefinition) (bytes : List Nat)
    (p : Nat) :
    decodeResponseStep reg ⟨bytes, p⟩ =
      (⟨(bytes.drop p).take (2 * reg.length), staticUnitOf reg⟩,
        ⟨bytes, p + 2 * reg.length⟩) := by
  cases hu : reg.unit <;>
    simp [decodeResponseStep, decodeRegister, staticUnitOf, hu]

theorem decodeRest_spec (start : Nat) (bytes : List Nat) :
    ∀ (rest : List RegisterDefinition) (prev : RegisterDefinition)
      (acc : List Result),
      start ≤ prev.register →
      List.Chain' (fun x y => x.register + x.length ≤ y.register) (prev :: rest) →
      decodeRest prev rest ⟨bytes, 2 * (prev.register + prev.length - start)⟩ acc =
        acc.reverse ++ rest.map (fun r =>
          ⟨specFieldValue start bytes r, staticUnitOf r⟩) := by
  intro rest
  induction rest with
  | nil =>
    intro prev acc _ _
    simp [decodeRest]
  | cons r rs ih =>
    intro prev acc hstart hchain
    have hpr : prev.register + prev.length ≤ r.register :=
      (List.chain'_cons.mp hchain).1
    have hchain2 := (List.chain'_cons.mp hchain).2
    have hstart2 : start ≤ r.register := by omega
    have e2 : 2 * (prev.register + prev.length - start) +
        (r.register - (prev.register + prev.length)) * 2 =
        2 * (r.register - start) := by omega
    have e3 : 2 * (r.register - start) + 2 * r.length =
        2 * (r.register + r.length - start) := by omega
    have step : decodeRest prev (r :: rs)
        ⟨bytes, 2 * (prev.register + prev.length - start)⟩ acc =
        decodeRest r rs ⟨bytes, 2 * (r.register + r.length - start)⟩
          ((⟨specFieldValue start bytes r, staticUnitOf r⟩ : Result) :: acc) := by
      simp only [decodeRest, skipBytes]
      rw [e2, decodeResponseStep_eval, e3]
      rfl
    rw [step, ih r _ hstart2 hchain2]
    simp

theorem decodeAll_spec (regs : List RegisterDefinition) (bytes : List Nat)
    (hchain : List.Chain' (fun x y => x.register + x.length ≤ y.register) regs) :
    decodeAll regs ⟨bytes, 0⟩ =
      regs.map (fun r =>
        ⟨specFieldValue regs.headI.register bytes r, staticUnitOf r⟩) := by
  cases regs with
  | nil => simp [decodeAll]
  | cons r0 rest =>
    have h0 : decodeResponseStep r0 ⟨bytes, 0⟩ =
        ((⟨specFieldValue r0.register bytes r0, staticUnitOf r0⟩ : Result),
          ⟨bytes, 2 * r0.length⟩) := by
      rw [decodeResponseStep_eval]
      simp [specFieldValue]
    have e : 2 * r0.length = 2 * (r0.register + r0.length - r0.register) := by
      omega
    simp only [decodeAll, h0, List.headI_cons]
    rw [e, decodeRest_spec r0.register bytes rest r0 _ (le_refl _) hchain]
    simp

/-! ## Lemmas about issued wire requests -/

theorem doReadAttempt_requests_sub (tr : Transport) (reg : Nat) (c u : Int)
    (k : Nat) : ∀ q, q ∈ (doReadAttempt tr reg c u k).2 →
      q = (⟨reg, c, u⟩ : WireRequest) := by
  intro q hq
  unfold doReadAttempt at hq
  split at hq
  · simp at hq
  · split at hq <;> simpa using hq

theorem backoffRun_requests_mem (tr : Transport) (reg : Nat) (c u : Int) :
    ∀ remaining tries waits reqs q,
      q ∈ (backoffRun tr reg c u remaining tries waits reqs).requests →
        q ∈ reqs ∨ q = (⟨reg, c, u⟩ : WireRequest) := by
  intro remaining
  induction remaining with
  | zero =>
    intro tries waits reqs q hq
    exact Or.inl (by simpa [backoffRun] using hq)
  | succ n ih =>
    intro tries waits reqs q hq
    rcases hat : doReadAttempt tr reg c u tries with ⟨step, rq⟩
    have hsub : ∀ x, x ∈ rq → x = (⟨reg, c, u⟩ : WireRequest) := by
      intro x hx
      exact doReadAttempt_requests_sub tr reg c u tries x (by rw [hat]; exact hx)
    cases step with
    | finished r =>
      rw [backoffRun_finished hat] at hq
      rcases List.mem_append.mp hq with hq | hq
      · exact Or.inl hq
      · exact Or.inr (hsub q hq)
    | timedOut =>
      by_cases h0 : n = 0
      · subst h0
        have hb : backoffRun tr reg c u (0 + 1) tries waits reqs =
            ⟨.error (.readError (giveupMessage reg (tries + 1))), tries + 1,
              waits, reqs ++ rq⟩ := by
          simp [backoffRun, hat]
        rw [hb] at hq
        rcases List.mem_append.mp hq with hq | hq
        · exact Or.inl hq
        · exact Or.inr (hsub q hq)
      · have hb : backoffRun tr reg c u (n + 1) tries waits reqs =
            backoffRun tr reg c u n (tries + 1) (waits + 1) (reqs ++ rq) := by
          simp [backoffRun, hat, h0]
        rw [hb] at hq
        rcases ih (tries + 1) (waits + 1) (reqs ++ rq) q hq with hq2 | hq2
        · rcases List.mem_append.mp hq2 with hq3 | hq3
          · exact Or.inl hq3
          · exact Or.inr (hsub q hq3)
        · exact Or.inr hq2

theorem doRead_requests_unitId {tr : Transport} {reg : Nat} {c u : Int}
    {q : WireRequest} (hq : q ∈ (doRead tr reg c u).requests) : q.unitId = u := by
  have hq2 : q ∈ (backoffRun tr reg c u MAX_TRIES 0 0 []).requests := hq
  rcases backoffRun_requests_mem tr reg c u MAX_TRIES 0 0 [] q hq2 with h | h
  · simp at h
  · rw [h]

/-! ## Claim theorems -/

/-- C1: the claim says a request whose resolved definitions leave an
inter-field gap larger than 64 words fails with `InvalidRequest` and issues
no wire read.  In the code, `register_distance` is computed as
`registers[idx-1].register + registers[idx-1].length - registers[idx].register`
— the negation of the gap — which is never `> 64` once the monotonicity check
has passed, so the gap rejection is dead code: with a 99-word gap the
validation succeeds and a 101-word wire read is issued. -/
theorem oversized_gap_not_rejected :
    validatePairs [⟨0, 1, .absent⟩, ⟨100, 1, .absent⟩] = .ok () ∧
    getMultiple schemaGap (replyTransport (.registersResp (List.replicate 101 0)))
        1 none ["A", "B"] =
      (.ok [⟨[0, 0], none⟩, ⟨[0, 0], none⟩], [⟨0, 101, 1⟩]) :=
  ⟨by decide, by decide⟩

/-- C2 (counterexample): the claim says the session slot is held until the
cooldown delay has elapsed after the exchange completes, whether the exchange
succeeds or fails.  On the failure path of `_read_registers`, the exception
raised by `_do_read` propagates out of the `async with` block at once: the
lock is released with no cooldown sleep. -/
theorem cooldown_skipped_on_failure :
    readRegistersTrace false = [.acquire, .exchange false, .release] ∧
    LockEvent.cooldownSleep ∉ readRegistersTrace false := by
  decide

/-- C2 (amended): the slot is acquired before the exchange and released
after it; on a successful exchange the cooldown sleep runs, under the lock,
before the release, but on a failed exchange the slot is released
immediately without any cooldown. -/
theorem readRegisters_lock_discipline (success : Bool) :
    readRegistersTrace success =
      [.acquire, .exchange success] ++
        (if success then [.cooldownSleep] else []) ++ [.release] := by
  cases success <;> rfl

/-- C3: an empty request list, an unresolvable name, or resolved definitions
that are not in strictly increasing non-overlapping offset order make
`get_multiple` fail with `InvalidRequest` (`ValueError`) without issuing any
wire read. -/
theorem getMultiple_rejects_invalid (schema : String → Option RegisterDefinition)
    (tr : Transport) (ss : Int) (sl : Option Int) (names : List String)
    (h : names = [] ∨ (∃ n ∈ names, schema n = none) ∨
      HasOrderViolation (names.filterMap schema)) :
    (∃ m, (getMultiple schema tr ss sl names).1 = .error (.invalidRequest m)) ∧
    (getMultiple schema tr ss sl names).2 = [] := by
  have hp : ∃ m, planRequest schema names = .error (.invalidRequest m) := by
    by_cases h0 : names.length = 0
    · exact ⟨"Expected at least one register name", by simp [planRequest, h0]⟩
    · by_cases h1 : none ∈ names.map schema
      · exact ⟨"Did not recognize all register names",
          by simp [planRequest, h0, h1]⟩
      · rcases h with h | ⟨n, hn, hs⟩ | hv
        · exact absurd (by simp [h]) h0
        · exact absurd (List.mem_map.mpr ⟨n, hn, hs⟩) h1
        · obtain ⟨m, hm⟩ := validatePairs_violation (names.filterMap schema) hv
          have hm2 : validatePairs ((names.map schema).reduceOption) =
              .error (.invalidRequest m) := by
            rw [reduceOption_map_eq_filterMap]
            exact hm
          exact ⟨m, by simp [planRequest, h0, h1, hm2]⟩
  obtain ⟨m, hm⟩ := hp
  rw [getMultiple_planError hm]
  exact ⟨⟨m, rfl⟩, rfl⟩

/-- C3 witness at a concrete out-of-order request. -/
theorem getMultiple_rejects_invalid_witness :
    (∃ m, (getMultiple schemaTwo timeoutTransport 1 none ["B", "A"]).1 =
      .error (.invalidRequest m)) ∧
    (getMultiple schemaTwo timeoutTransport 1 none ["B", "A"]).2 = [] :=
  getMultiple_rejects_invalid schemaTwo timeoutTransport 1 none ["B", "A"]
    (Or.inr (Or.inr ⟨0, by decide, by decide⟩))

/-- C4: when the transport is connected and every attempt times out,
`_do_read` retries with constant backoff (`DEFAULT_WAIT` interval, no
jitter): 5 attempts total, 4 waits, then a `ReadException` reporting the
number of tries; and no transport can ever drive it past `MAX_TRIES`
attempts. -/
theorem doRead_exhausts_timeouts (tr : Transport) (reg : Nat) (c u : Int)
    (hc : tr.connected = true) (ht : ∀ k, tr.outcome k = .timeoutErr) :
    doRead tr reg c u =
      ⟨.error (.readError (giveupMessage reg MAX_TRIES)), MAX_TRIES,
        MAX_TRIES - 1, List.replicate MAX_TRIES ⟨reg, c, u⟩⟩ ∧
    ∀ tr2 : Transport, (doRead tr2 reg c u).tries ≤ MAX_TRIES := by
  refine ⟨?_, fun tr2 => ?_⟩
  · simpa [MAX_TRIES] using doRead_all_timeouts hc ht
  · simpa [doRead, MAX_TRIES] using backoffRun_tries_le tr2 reg c u 5 0 0 []

/-- C4 witness at a concrete always-timing-out transport. -/
theorem doRead_exhausts_timeouts_witness :
    doRead timeoutTransport 7 3 2 =
      ⟨.error (.readError (giveupMessage 7 MAX_TRIES)), MAX_TRIES,
        MAX_TRIES - 1, List.replicate MAX_TRIES ⟨7, 3, 2⟩⟩ ∧
    ∀ tr2 : Transport, (doRead tr2 7 3 2).tries ≤ MAX_TRIES :=
  doRead_exhausts_timeouts timeoutTransport 7 3 2 rfl (fun _ => rfl)

/-- C5: when the transport does not report itself connected, the read fails
immediately with `ConnectionException`: one attempt, zero backoff waits, no
wire request issued; at the `get_multiple` level no wire traffic occurs and
the call fails with `ConnectionError` (or `InvalidRequest` when validation
already failed). -/
theorem doRead_disconnected_fails_fast (tr : Transport) (reg : Nat) (c u : Int)
    (h : tr.connected = false) :
    doRead tr reg c u =
      ⟨.error (.connectionError "Modbus client is not connected to the inverter."),
        1, 0, []⟩ ∧
    ∀ (schema : String → Option RegisterDefinition) (ss : Int) (sl : Option Int)
      (names : List String),
      (getMultiple schema tr ss sl names).2 = [] ∧
      ((∃ m, (getMultiple schema tr ss sl names).1 = .error (.connectionError m)) ∨
        (∃ m, (getMultiple schema tr ss sl names).1 = .error (.invalidRequest m))) := by
  have hgen : ∀ (reg2 : Nat) (c2 u2 : Int), doRead tr reg2 c2 u2 =
      ⟨.error (.connectionError "Modbus client is not connected to the inverter."),
        1, 0, []⟩ :=
    fun reg2 c2 u2 => doRead_attempt0 (doReadAttempt_disconnected reg2 c2 u2 0 h)
  refine ⟨hgen reg c u, fun schema ss sl names => ?_⟩
  cases hp : planRequest schema names with
  | error e =>
    rw [getMultiple_planError hp]
    obtain ⟨m, hm⟩ := planRequest_error_shape hp
    exact ⟨rfl, Or.inr ⟨m, by rw [hm]⟩⟩
  | ok plan =>
    have hdr := hgen plan.startOffset plan.totalLength (effectiveSlave sl ss)
    constructor
    · simp [getMultiple, hp, hdr]
    · exact Or.inl ⟨"Modbus client is not connected to the inverter.",
        by simp [getMultiple, hp, hdr]⟩

/-- C5 witness at a concrete disconnected transport. -/
theorem doRead_disconnected_fails_fast_witness :
    doRead downTransport 7 3 2 =
      ⟨.error (.connectionError "Modbus client is not connected to the inverter."),
        1, 0, []⟩ ∧
    ∀ (schema : String → Option RegisterDefinition) (ss : Int) (sl : Option Int)
      (names : List String),
      (getMultiple schema downTransport ss sl names).2 = [] ∧
      ((∃ m, (getMultiple schema downTransport ss sl names).1 =
        .error (.connectionError m)) ∨
        (∃ m, (getMultiple schema downTransport ss sl names).1 =
          .error (.invalidRequest m))) :=
  doRead_disconnected_fails_fast downTransport 7 3 2 rfl

/-- C6: a protocol-level `ExceptionResponse` is returned on the first attempt
and never retried — `get_multiple` translates it to a `ReadException`; a
pymodbus `ConnectionException` during the call is translated to
`ReadException` on the first attempt, not retried as a timeout. -/
theorem wire_failures_not_retried (tr1 tr2 : Transport) (reg : Nat) (c u : Int)
    (code : Nat)
    (h1c : tr1.connected = true)
    (h1 : tr1.outcome 0 = .reply (.exceptionResponse code))
    (h2c : tr2.connected = true) (h2 : tr2.outcome 0 = .connectionLost) :
    doRead tr1 reg c u = ⟨.ok (.exceptionResponse code), 1, 0, [⟨reg, c, u⟩]⟩ ∧
    (∀ (schema : String → Option RegisterDefinition) (ss : Int) (sl : Option Int)
        (names : List String) (plan : ReadPlan),
      planRequest schema names = .ok plan →
        (getMultiple schema tr1 ss sl names).1 =
          .error (.readError
            (exceptionMessage plan.startOffset plan.totalLength code))) ∧
    doRead tr2 reg c u =
      ⟨.error (.readError
        "could not read register value, is an other device already connected?"),
        1, 0, [⟨reg, c, u⟩]⟩ := by
  refine ⟨doRead_reply reg c u h1c h1, fun schema ss sl names plan hp => ?_,
    doRead_attempt0 (doReadAttempt_connLost reg c u h2c h2)⟩
  have hdr := doRead_reply plan.startOffset plan.totalLength
    (effectiveSlave sl ss) h1c h1
  simp [getMultiple, hp, hdr]

/-- C6 witness at concrete transports. -/
theorem wire_failures_not_retried_witness :
    doRead (replyTransport (.exceptionResponse 2)) 0 3 1 =
      ⟨.ok (.exceptionResponse 2), 1, 0, [⟨0, 3, 1⟩]⟩ ∧
    (getMultiple schemaTwo (replyTransport (.exceptionResponse 2)) 1 none
      ["A", "B"]).1 = .error (.readError (exceptionMessage 0 3 2)) ∧
    doRead connLostTransport 0 3 1 =
      ⟨.error (.readError
        "could not read register value, is an other device already connected?"),
        1, 0, [⟨0, 3, 1⟩]⟩ := by
  have h := wire_failures_not_retried (replyTransport (.exceptionResponse 2))
    connLostTransport 0 3 1 2 rfl rfl rfl rfl
  exact ⟨h.1, h.2.1 schemaTwo 1 none ["A", "B"]
    ⟨0, 3, [⟨0, 1, .staticUnit "V"⟩, ⟨2, 1, .absent⟩]⟩ (by decide), h.2.2⟩

/-- C7: for a validated request answered on the first attempt, exactly one
wire read is issued; it starts at the first resolved definition's offset and
fetches exactly `last.register + last.length - first.register` words. -/
theorem getMultiple_single_wire_range (schema : String → Option RegisterDefinition)
    (tr : Transport) (ss : Int) (sl : Option Int) (names : List String)
    (plan : ReadPlan) (resp : WireResponse)
    (hplan : planRequest schema names = .ok plan)
    (hc : tr.connected = true) (h0 : tr.outcome 0 = .reply resp) :
    (getMultiple schema tr ss sl names).2 =
      [⟨plan.startOffset, plan.totalLength, effectiveSlave sl ss⟩] ∧
    plan.startOffset = (names.filterMap schema).headI.register ∧
    plan.totalLength =
      ((((names.filterMap schema).getLastD default).register : Int) +
        (((names.filterMap schema).getLastD default).length : Int) -
        ((names.filterMap schema).headI.register : Int)) := by
  obtain ⟨-, hso, htl, -, -⟩ := planRequest_ok_spec hplan
  refine ⟨?_, hso, htl⟩
  have hdr := doRead_reply plan.startOffset plan.totalLength
    (effectiveSlave sl ss) hc h0
  cases resp with
  | registersResp words => simp [getMultiple, hplan, hdr]
  | exceptionResponse code => simp [getMultiple, hplan, hdr]

/-- C7 witness at a concrete request. -/
theorem getMultiple_single_wire_range_witness :
    (getMultiple schemaTwo (replyTransport (.registersResp [1, 2, 3])) 1 none
      ["A", "B"]).2 = [⟨0, 3, 1⟩] ∧
    (0 : Nat) = (["A", "B"].filterMap schemaTwo).headI.register ∧
    (3 : Int) =
      ((((["A", "B"].filterMap schemaTwo).getLastD default).register : Int) +
        (((["A", "B"].filterMap schemaTwo).getLastD default).length : Int) -
        (((["A", "B"].filterMap schemaTwo).headI.register : Int))) :=
  getMultiple_single_wire_range schemaTwo
    (replyTransport (.registersResp [1, 2, 3])) 1 none ["A", "B"]
    ⟨0, 3, [⟨0, 1, .staticUnit "V"⟩, ⟨2, 1, .absent⟩]⟩ (.registersResp [1, 2, 3])
    (by decide) rfl rfl

/-- C8: for a validated request answered with a word buffer, `get_multiple`
returns exactly one `Result` per requested name, in request order: field `i`
is decoded from the byte slice starting at `2 * (def_i.offset - startOffset)`
— i.e. the cursor walk (skip the inter-field gap bytes, then consume
`2 * length` bytes) lands each field at its specified slice. -/
theorem getMultiple_decodes_in_order (schema : String → Option RegisterDefinition)
    (tr : Transport) (ss : Int) (sl : Option Int) (names : List String)
    (plan : ReadPlan) (words : List Nat)
    (hplan : planRequest schema names = .ok plan)
    (hc : tr.connected = true)
    (h0 : tr.outcome 0 = .reply (.registersResp words)) :
    (getMultiple schema tr ss sl names).1 =
      .ok ((names.filterMap schema).map (fun r =>
        ⟨specFieldValue (names.filterMap schema).headI.register
          (fromRegisters words).bytes r, staticUnitOf r⟩)) ∧
    (names.filterMap schema).length = names.length := by
  obtain ⟨hdefs, hso, -, hvp, hlen⟩ := planRequest_ok_spec hplan
  refine ⟨?_, hlen⟩
  have hdr := doRead_reply plan.startOffset plan.totalLength
    (effectiveSlave sl ss) hc h0
  have hchain := validatePairs_ok_chain _ hvp
  have hda := decodeAll_spec (names.filterMap schema)
    (fromRegisters words).bytes hchain
  have hfr : fromRegisters words = ⟨(fromRegisters words).bytes, 0⟩ := rfl
  simp only [getMultiple, hplan, hdr]
  rw [hdefs, hfr, hda]

/-- C8 witness at a concrete request and buffer. -/
theorem getMultiple_decodes_in_order_witness :
    (getMultiple schemaTwo (replyTransport (.registersResp [1, 2, 3])) 1 none
      ["A", "B"]).1 =
      .ok ((["A", "B"].filterMap schemaTwo).map (fun r =>
        ⟨specFieldValue (["A", "B"].filterMap schemaTwo).headI.register
          (fromRegisters [1, 2, 3]).bytes r, staticUnitOf r⟩)) ∧
    (["A", "B"].filterMap schemaTwo).length = ["A", "B"].length :=
  getMultiple_decodes_in_order schemaTwo
    (replyTransport (.registersResp [1, 2, 3])) 1 none ["A", "B"]
    ⟨0, 3, [⟨0, 1, .staticUnit "V"⟩, ⟨2, 1, .absent⟩]⟩ [1, 2, 3]
    (by decide) rfl rfl

/-- C9 (counterexample): the claim requires every pair of consecutive
exchanges to be separated by at least the cooldown time.  A schedule in which
the first exchange fails is admissible for the lock discipline of
`_read_registers` (the lock is released without the cooldown sleep), yet the
second exchange may start immediately, violating the claimed separation. -/
theorem cooldown_spacing_violated :
    admissibleSchedule 1 2 (fun _ => 0) (fun _ => 0) (fun _ => false) ∧
    ¬ cooldownSeparated 1 2 (fun _ => 0) (fun _ => 0) := by
  constructor
  · refine ⟨fun i _ => le_refl 0, fun i hi => ?_⟩
    simp
  · intro hsep
    have h0 := hsep 0 (by norm_num)
    norm_num at h0

/-- C9 (amended): for every admissible schedule — whatever the exchange
outcomes — the lock discipline makes the `N` exchanges strictly sequential,
no two overlapping; and when every exchange succeeds, consecutive exchanges
are moreover separated by at least the cooldown time. -/
theorem serialized_exchanges_spaced (c : ℚ) (N : Nat) (a d : Nat → ℚ)
    (ok : Nat → Bool) (hc : 0 ≤ c) (h : admissibleSchedule c N a d ok) :
    exchangesSequential N a d ∧
    ((∀ i, i < N → ok i = true) → cooldownSeparated c N a d) := by
  obtain ⟨hd, hstep⟩ := h
  have hstep0 : ∀ i, i + 1 < N → a i + d i ≤ a (i + 1) := by
    intro i hi
    have hs := hstep i hi
    have hif : 0 ≤ (if ok i then c else 0) := by
      split
      · exact hc
      · exact le_refl 0
    linarith
  constructor
  · intro i j
    induction j with
    | zero =>
      intro hij _
      omega
    | succ k ihk =>
      intro hij hjN
      rcases Nat.lt_succ_iff_lt_or_eq.mp hij with hik | hik
      · have h1 : a i + d i ≤ a k := ihk hik (by omega)
        have h2 := hstep0 k hjN
        have h3 := hd k (by omega)
        linarith
      · subst hik
        exact hstep0 i hjN
  · intro hok i hi
    have hs := hstep i hi
    rw [hok i (by omega)] at hs
    simpa using hs

/-- C9 witness at a concrete two-caller schedule. -/
theorem serialized_exchanges_spaced_witness :
    exchangesSequential 2 (fun i => (i : ℚ) * 3) (fun _ => 2) ∧
    cooldownSeparated 1 2 (fun i => (i : ℚ) * 3) (fun _ => 2) := by
  have hadm : admissibleSchedule 1 2 (fun i => (i : ℚ) * 3) (fun _ => 2)
      (fun _ => true) := by
    refine ⟨fun i _ => by norm_num, fun i hi => ?_⟩
    have hi0 : i = 0 := by omega
    subst hi0
    push_cast
    norm_num
  have h := serialized_exchanges_spaced 1 2 (fun i => (i : ℚ) * 3) (fun _ => 2)
    (fun _ => true) (by norm_num) hadm
  exact ⟨h.1, h.2 (fun _ _ => rfl)⟩

/-- C10: `_do_read` passes `unit=slave or self.slave` to the wire call; by
Python truthiness a per-call slave id of `0` (like `None`) is replaced by the
session default, so every wire request issued by a call with `slave=0`
carries the session slave id, and slave `0` can never be selected per-call on
a session with a non-zero default. -/
theorem slave_zero_uses_session_default (ss : Int) :
    effectiveSlave (some 0) ss = ss ∧
    effectiveSlave none ss = ss ∧
    (∀ sl : Option Int, ss ≠ 0 → effectiveSlave sl ss ≠ 0) ∧
    (∀ (schema : String → Option RegisterDefinition) (tr : Transport)
        (names : List String) (q : WireRequest),
      q ∈ (getMultiple schema tr ss (some 0) names).2 → q.unitId = ss) := by
  refine ⟨rfl, rfl, ?_, ?_⟩
  · intro sl hss
    cases sl with
    | none => simpa [effectiveSlave] using hss
    | some s =>
      by_cases h0 : s = 0
      · subst h0
        simpa [effectiveSlave] using hss
      · simp [effectiveSlave, h0]
  · intro schema tr names q hq
    cases hp : planRequest schema names with
    | error e =>
      rw [getMultiple_planError hp] at hq
      simp at hq
    | ok plan =>
      have hes : effectiveSlave (some 0) ss = ss := rfl
      have hreq : (getMultiple schema tr ss (some 0) names).2 =
          (doRead tr plan.startOffset plan.totalLength ss).requests := by
        rcases hr : (doRead tr plan.startOffset plan.totalLength ss).result
          with e | w
        · simp [getMultiple, hp, hes, hr]
        · cases w with
          | registersResp words => simp [getMultiple, hp, hes, hr]
          | exceptionResponse code => simp [getMultiple, hp, hes, hr]
      rw [hreq] at hq
      exact doRead_requests_unitId hq

/-- C10 witness at a concrete session and request. -/
theorem slave_zero_uses_session_default_witness :
    effectiveSlave (some 0) 1 = 1 ∧ effectiveSlave (some 3) 1 ≠ 0 ∧
    (⟨0, 3, 1⟩ : WireRequest).unitId = 1 := by
  have h := slave_zero_uses_session_default 1
  refine ⟨h.1, h.2.2.1 (some 3) (by norm_num), ?_⟩
  exact h.2.2.2 schemaTwo (replyTransport (.registersResp [1, 2, 3]))
    ["A", "B"] ⟨0, 3, 1⟩ (by decide)

end HuaweiSolar
